import Mathlib

/-!
Verification development for the `pathwiz` file-management toolkit.

The definitions below are a shallow embedding of the Python sources in
`src/file_management/` (notably `permissions.py` and `structure.py`):
pure functions are translated directly, the stateful permission audit is
modelled as explicit state passing over a tree of filesystem entries, and
machine-level bit operations on permission bits are carried out on `Nat`
with explicit masking, exactly as the source performs `& 0o777`.
-/

namespace Pathwiz

/-! ## Permission codec (`permissions.py`) -/

/-- Embedding of `PermissionsManager.octal_digit_to_rwx`: convert a single
octal digit (0-7) into an rwx string.  The source tests `octal_digit & 0b100`
etc. and concatenates one character per bit. -/
def octal_digit_to_rwx (octal_digit : Nat) : String :=
  (if octal_digit &&& 0b100 ≠ 0 then "r" else "-")
    ++ (if octal_digit &&& 0b010 ≠ 0 then "w" else "-")
    ++ (if octal_digit &&& 0b001 ≠ 0 then "x" else "-")

/-- Embedding of `PermissionsManager.permissions_to_rwx`: the source loops
over the shifts `(6, 3, 0)`, extracting `(octal_permissions >> shift) & 0o7`
and appending `octal_digit_to_rwx` of each digit to an accumulator string. -/
def permissions_to_rwx (octal_permissions : Nat) : String :=
  octal_digit_to_rwx ((octal_permissions >>> 6) &&& 0o7)
    ++ octal_digit_to_rwx ((octal_permissions >>> 3) &&& 0o7)
    ++ octal_digit_to_rwx ((octal_permissions >>> 0) &&& 0o7)

/-- Value of one rwx triad of symbol characters: `r` in the first slot
contributes 4, `w` in the second slot 2, `x` in the third slot 1. -/
def triadVal (r w x : Char) : Nat :=
  (if r = 'r' then 4 else 0) + (if w = 'w' then 2 else 0)
    + (if x = 'x' then 1 else 0)

/-- Modelled from the spec: the repository has no inverse codec function;
the spec's testable property `symbol_to_value(value_to_symbol(v)) == v`
names an inverse `symbol_to_value` that converts a 9-character symbolic
`rwx` string back into the 9-bit permission value, reading the owner,
group and other triads in that order. -/
def symbol_to_value (s : String) : Nat :=
  match s.data with
  | [a, b, c, d, e, f, g, h, i] =>
      64 * triadVal a b c + 8 * triadVal d e f + triadVal g h i
  | _ => 0

/-! ## Permission auditor (`permissions.py`, `check_permissions`)

Filesystem state is a tree of entries, each carrying its 9-bit permission
value.  The model has no symbolic links, so the `resolve` flag of the source
(which only selects `follow_symlinks` for `os.stat`) has no observable
effect and is omitted.  The audit functions return the updated tree together
with the number of `os.stat` reads and `os.chmod` writes performed. -/

/-- A filesystem entry for the permission audit: a plain file or a
directory with children, each carrying its permission bits. -/
inductive PEntry where
  | file (name : String) (perm : Nat)
  | dir (name : String) (perm : Nat) (children : List PEntry)
deriving Repr

/-- Embedding of the inner `check_and_correct`: read the permission bits
(`os.stat`, one read), mask with `0o777`, and if the result differs from the
requested permissions overwrite them (`os.chmod`, one write).  Returns the
new permission bits, the stat count and the chmod count. -/
def check_and_correct (request : Nat) (perm : Nat) : Nat × Nat × Nat :=
  if perm &&& 0o777 ≠ request then (request, 1, 1) else (perm, 1, 0)

mutual

/-- Embedding of the inner `traverse`: the source corrects the current node
with `check_and_correct` (even when it is a plain file, as can happen for
the audit root), then lists the children, keeps only the directories among
them, and recurses into each in listing order.  Returns the updated entry
together with the stat and chmod counts. -/
def traverse (request : Nat) : PEntry → PEntry × Nat × Nat
  | .file n p =>
      let here := check_and_correct request p
      (.file n here.1, 1, here.2.2)
  | .dir n p cs =>
      let here := check_and_correct request p
      let rest := traverseChildren request cs
      (.dir n here.1 rest.1, 1 + rest.2.1, here.2.2 + rest.2.2)

/-- The child loop of `traverse`: plain-file children are never statted or
corrected; directory children are traversed in listing order. -/
def traverseChildren (request : Nat) : List PEntry → List PEntry × Nat × Nat
  | [] => ([], 0, 0)
  | e :: es =>
      let rest := traverseChildren request es
      match e with
      | .file n p => (.file n p :: rest.1, rest.2)
      | .dir n p cs =>
          let d := traverse request (.dir n p cs)
          (d.1 :: rest.1, d.2.1 + rest.2.1, d.2.2 + rest.2.2)

end

/-- Embedding of `PermissionsManager.check_permissions`: the audit target is
`none` when `full_path.exists()` is false, in which case the source returns
immediately; otherwise the target entry is traversed. -/
def check_permissions (target : Option PEntry) (request : Nat) :
    Option PEntry × Nat × Nat :=
  match target with
  | none => (none, 0, 0)
  | some e =>
      let r := traverse request e
      (some r.1, r.2)

mutual

/-- `true` when every directory in the given subtree already carries
exactly the requested permission bits (plain files are unconstrained). -/
def dirsAtTargetEntry (request : Nat) : PEntry → Bool
  | .file _ _ => true
  | .dir _ p cs => (p &&& 0o777 == request) && dirsAtTarget request cs

/-- `true` when every directory in the given subtrees already carries
exactly the requested permission bits. -/
def dirsAtTarget (request : Nat) : List PEntry → Bool
  | [] => true
  | e :: es => dirsAtTargetEntry request e && dirsAtTarget request es

end

/-- `true` when the audit root itself and every directory below it already
carry exactly the requested permission bits. -/
def allAudited (request : Nat) (e : PEntry) : Bool :=
  match e with
  | .file _ p => p &&& 0o777 == request
  | .dir _ p cs => (p &&& 0o777 == request) && dirsAtTarget request cs

mutual

/-- Erase the permission bits of every directory in a subtree, keeping
names, tree shape and the permission bits of all plain files: two subtrees
agree under this mask exactly when they differ at most in the directories'
permission bits. -/
def maskInner : PEntry → PEntry
  | .file n p => .file n p
  | .dir n _ cs => .dir n 0 (maskInnerList cs)

/-- `maskInner` applied to each entry of a list of children. -/
def maskInnerList : List PEntry → List PEntry
  | [] => []
  | e :: es => maskInner e :: maskInnerList es

end

/-- Mask for the audit root: the root's own permission bits are erased
whether it is a file or a directory, and below it `maskInner` erases
exactly the directories' bits. -/
def maskAudited : PEntry → PEntry
  | .file n _ => .file n 0
  | .dir n _ cs => .dir n 0 (maskInnerList cs)

/-! ## Directory tree renderer (`structure.py`)

Filesystem state is a tree of named entries; file contents are irrelevant
to the renderer.  Python's `pathlib` name helpers (`suffix`, `stem`,
`startswith`), its tuple-key stable `sorted`, and the insertion-ordered
`dict` are embedded below. -/

/-- A filesystem entry as seen by the renderer: a plain file or a
directory with children (in OS listing order). -/
inductive FsEntry where
  | file (name : String)
  | dir (name : String) (children : List FsEntry)

/-- `item.name`. -/
def entryName : FsEntry → String
  | .file n => n
  | .dir n _ => n

/-- `item.is_dir()`. -/
def entryIsDir : FsEntry → Bool
  | .file _ => false
  | .dir _ _ => true

/-- `item.is_file()`. -/
def entryIsFile (e : FsEntry) : Bool := !entryIsDir e

/-- `name.startswith(".")`. -/
def hiddenName (n : String) : Bool :=
  match n.data with
  | [] => false
  | c :: _ => c == '.'

/-- Lexicographic strict order on character lists, by code point, as used
by Python string comparison. -/
def strListLt : List Char → List Char → Bool
  | [], [] => false
  | [], _ :: _ => true
  | _ :: _, [] => false
  | a :: as, b :: bs =>
      if a.val < b.val then true
      else if b.val < a.val then false
      else strListLt as bs

/-- Python `s < t` on strings. -/
def strLt (s t : String) : Bool := strListLt s.data t.data

/-- The sort key of the markdown pass, `key=lambda x: (x.is_file(), x.name)`,
as a total `≤` test: directories (`is_file = False`) precede files, ties
broken by name ascending. -/
def mdLe (a b : FsEntry) : Bool :=
  match entryIsFile a, entryIsFile b with
  | false, true => true
  | true, false => false
  | _, _ => !strLt (entryName b) (entryName a)

/-- The sort of the dict pass, `sorted(path.iterdir())`, compares sibling
paths by name. -/
def dictLe (a b : FsEntry) : Bool :=
  !strLt (entryName b) (entryName a)

/-- Insert an element into a sorted list, before the first element it is
`le`-related to; combined with `isortBy` this reproduces the output of
Python's stable ascending `sorted`. -/
def insertLe {α : Type} (le : α → α → Bool) (x : α) : List α → List α
  | [] => [x]
  | y :: ys => if le x y then x :: y :: ys else y :: insertLe le x ys

/-- Stable insertion sort with a total `≤` test. -/
def isortBy {α : Type} (le : α → α → Bool) : List α → List α
  | [] => []
  | x :: xs => insertLe le x (isortBy le xs)

/-- The skip test of the dict pass (`_build_dict_structure`): `item.name in
excluded_directories or (exclude_hidden and item.name.startswith("."))` —
applied to every entry, directory or not. -/
def dictSkip (excluded : List String) (excludeHidden : Bool)
    (e : FsEntry) : Bool :=
  excluded.contains (entryName e)
    || (excludeHidden && hiddenName (entryName e))

/-- The skip test of the markdown pass: `item.is_dir() and (item.name in
excluded_directories or (exclude_hidden and item.name.startswith(".")))` —
only directories are ever skipped. -/
def mdSkip (excluded : List String) (excludeHidden : Bool)
    (e : FsEntry) : Bool :=
  entryIsDir e && (excluded.contains (entryName e)
    || (excludeHidden && hiddenName (entryName e)))

/-- The `items` list of the markdown pass: children sorted with the
`(is_file, name)` key, then filtered by the markdown skip test. -/
def mdItems (excluded : List String) (excludeHidden : Bool)
    (cs : List FsEntry) : List FsEntry :=
  (isortBy mdLe cs).filter (fun i => !mdSkip excluded excludeHidden i)

/-- Index of the last `'.'` in a character list (`name.rfind('.')`),
`none` when absent. -/
def lastDotIdx : List Char → Option Nat
  | [] => none
  | c :: cs =>
      match lastDotIdx cs with
      | some i => some (i + 1)
      | none => if c == '.' then some 0 else none

/-- `pathlib` `PurePath.suffix`: the part of the name from its last dot on,
provided that dot is neither the first nor the last character; otherwise
the empty string. -/
def fileSuffix (name : String) : String :=
  let cs := name.data
  match lastDotIdx cs with
  | some i =>
      if 0 < i ∧ i < cs.length - 1 then String.mk (cs.drop i) else ""
  | none => ""

/-- `pathlib` `PurePath.stem`: the name with its suffix removed. -/
def fileStem (name : String) : String :=
  let cs := name.data
  match lastDotIdx cs with
  | some i =>
      if 0 < i ∧ i < cs.length - 1 then String.mk (cs.take i) else name
  | none => name

/-- `"└── "` for the last item at a level, `"├── "` otherwise. -/
def mdConnector (isLast : Bool) : String :=
  if isLast then "└── " else "├── "

/-- Continuation added under a rendered directory: blank under the last
item, a pipe otherwise. -/
def mdContinuation (isLast : Bool) : String :=
  if isLast then "    " else "│   "

mutual

/-- Node count of an entry, used as recursion fuel: it strictly exceeds
the depth of the subtree, so the fuel never runs out. -/
def sizeF : FsEntry → Nat
  | .file _ => 1
  | .dir _ cs => 1 + sizeList cs

/-- Total node count of a list of entries. -/
def sizeList : List FsEntry → Nat
  | [] => 0
  | e :: es => sizeF e + sizeList es

end

/-- Embedding of the loop body shared by `_generate_markdown_tree` and the
top-level loop of `generate_directory_tree`: a directory is always rendered
(with a trailing `/`) and recursed into over its sorted, skip-filtered
items, each item knowing whether it is last; a file is rendered only when
its suffix is `".py"`.  The fuel argument only bounds the recursion depth
and never runs out when it starts at the node count. -/
def mdEntryLines (excluded : List String) (excludeHidden : Bool) :
    Nat → FsEntry → String → Bool → List String
  | _, .file n, pre, isLast =>
      if fileSuffix n == ".py" then [pre ++ mdConnector isLast ++ n]
      else []
  | 0, .dir _ _, _, _ => []
  | fuel + 1, .dir n cs, pre, isLast =>
      let nextPre := pre ++ mdContinuation isLast
      let items := mdItems excluded excludeHidden cs
      (pre ++ mdConnector isLast ++ n ++ "/") ::
        items.enum.foldr (fun p acc =>
          mdEntryLines excluded excludeHidden fuel p.2 nextPre
            (p.1 == items.length - 1) ++ acc) []

/-- The markdown pass of `generate_directory_tree`: a header naming the
root, an opening fence, the root's bare name with a trailing `/`, the
rendered items of the root, and a closing fence. -/
def generateMarkdownLines (excluded : List String) (excludeHidden : Bool)
    (root : FsEntry) : List String :=
  match root with
  | .file n => ["# Project Structure: " ++ n, "```", n ++ "/", "```"]
  | .dir n cs =>
      let items := mdItems excluded excludeHidden cs
      ["# Project Structure: " ++ n, "```", n ++ "/"]
        ++ items.enum.foldr (fun p acc =>
            mdEntryLines excluded excludeHidden (sizeList cs) p.2 ""
              (p.1 == items.length - 1) ++ acc) []
        ++ ["```"]

/-- A value of the nested mapping: a dotted logical path string or a
nested mapping. -/
inductive DVal where
  | str (s : String)
  | dict (entries : List (String × DVal))

/-- An insertion-ordered string-keyed mapping, as Python's `dict`. -/
abbrev Dict := List (String × DVal)

/-- Python `d[k] = v`: overwrite in place when the key exists, append
otherwise. -/
def dictInsert (d : Dict) (k : String) (v : DVal) : Dict :=
  if d.any (fun p => p.1 == k) then
    d.map (fun p => if p.1 == k then (k, v) else p)
  else d ++ [(k, v)]

/-- Python `d.get(k)`. -/
def dictLookup (d : Dict) (k : String) : Option DVal :=
  match d.find? (fun p => p.1 == k) with
  | some p => some p.2
  | none => none

/-- Two-level lookup: the value at `k2` inside the nested mapping stored
at `k1`. -/
def dictLookup2 (d : Dict) (k1 k2 : String) : Option DVal :=
  match dictLookup d k1 with
  | some (.dict d') => dictLookup d' k2
  | _ => none

/-- `(item / "__init__.py").exists()`: a child of that name exists. -/
def hasInitFile (cs : List FsEntry) : Bool :=
  cs.any (fun e => entryName e == "__init__.py")

/-- Embedding of `_build_dict_structure`: iterate the name-sorted children;
skip entries matching the dict skip test; a package directory (one holding
the marker file) gets a fresh nested mapping built with an extended prefix,
a non-package directory is flattened into the current mapping with an
extended prefix, and a `".py"` file maps its stem to prefix-plus-stem. -/
def buildDictF (excluded : List String) (excludeHidden : Bool) :
    Nat → List FsEntry → Dict → String → Dict
  | 0, _, d, _ => d
  | fuel + 1, cs, d, pfx =>
      (isortBy dictLe cs).foldl (fun acc e =>
        if dictSkip excluded excludeHidden e then acc
        else match e with
          | .dir n ccs =>
              if hasInitFile ccs then
                dictInsert acc n (.dict (buildDictF excluded excludeHidden
                  fuel ccs [] (pfx ++ n ++ ".")))
              else
                buildDictF excluded excludeHidden fuel ccs acc
                  (pfx ++ n ++ ".")
          | .file n =>
              if fileSuffix n == ".py" then
                dictInsert acc (fileStem n) (.str (pfx ++ fileStem n))
              else acc) d

/-- The dict pass of `generate_directory_tree`: when the root itself holds
the marker file, the whole structure is nested under the root's name with
prefix `root.name + "."`; otherwise the build starts from an empty mapping
and an empty prefix. -/
def generateDict (excluded : List String) (excludeHidden : Bool)
    (root : FsEntry) : Dict :=
  match root with
  | .file _ => []
  | .dir n cs =>
      if hasInitFile cs then
        [(n, .dict (buildDictF excluded excludeHidden (sizeList cs) cs []
          (n ++ ".")))]
      else buildDictF excluded excludeHidden (sizeList cs) cs [] ""

/-- The default exclusion list installed when the caller passes `None`. -/
def defaultExcluded : List String := [".venv", "__pycache__", "tests"]

/-- Embedding of `generate_directory_tree`: the markdown element is `none`
unless requested, and is otherwise the joined lines, passed through the
optional formatter; the dict element is initialized to the empty mapping
and filled only when requested — the source never replaces it by `None`,
so its type here is `Dict`, not `Option Dict`, even though the source's
return annotation declares it optional. -/
def generate_directory_tree (root : FsEntry)
    (excluded_directories : Option (List String)) (exclude_hidden : Bool)
    (output_format : String) (formatter : Option (String → String)) :
    Option String × Dict :=
  let excluded := excluded_directories.getD defaultExcluded
  let markdown_output :=
    if output_format == "markdown" || output_format == "both" then
      let result_str := String.intercalate "\n"
        (generateMarkdownLines excluded exclude_hidden root)
      some (match formatter with
        | some f => f result_str
        | none => result_str)
    else none
  let dict_output :=
    if output_format == "dict" || output_format == "both" then
      generateDict excluded exclude_hidden root
    else []
  (markdown_output, dict_output)

/-! ## Codec lemmas -/

/-- `n &&& 7` is `n % 8`. -/
theorem land_seven (n : Nat) : n &&& 7 = n % 8 := by
  have h := Nat.and_pow_two_sub_one_eq_mod n 3
  norm_num at h
  exact h

/-- The owner digit of a permission value depends only on the low 9 bits. -/
theorem digit_shift6_mod (v : Nat) :
    (v >>> 6) &&& 0o7 = ((v % 0o1000) >>> 6) &&& 0o7 := by
  rw [Nat.shiftRight_eq_div_pow, Nat.shiftRight_eq_div_pow, land_seven,
    land_seven]
  norm_num
  omega

/-- The group digit of a permission value depends only on the low 9 bits. -/
theorem digit_shift3_mod (v : Nat) :
    (v >>> 3) &&& 0o7 = ((v % 0o1000) >>> 3) &&& 0o7 := by
  rw [Nat.shiftRight_eq_div_pow, Nat.shiftRight_eq_div_pow, land_seven,
    land_seven]
  norm_num
  omega

/-- The other digit of a permission value depends only on the low 9 bits. -/
theorem digit_shift0_mod (v : Nat) :
    (v >>> 0) &&& 0o7 = ((v % 0o1000) >>> 0) &&& 0o7 := by
  rw [Nat.shiftRight_eq_div_pow, Nat.shiftRight_eq_div_pow, land_seven,
    land_seven]
  simp only [pow_zero, Nat.div_one]
  omega

set_option maxRecDepth 10000 in
set_option maxHeartbeats 4000000 in
/-- Round-trip of the codec on each of the 512 nine-bit values. -/
theorem codec_roundtrip_fin :
    ∀ v : Fin 512, symbol_to_value (permissions_to_rwx v.val) = v.val := by
  decide

set_option maxRecDepth 10000 in
set_option maxHeartbeats 4000000 in
/-- Length and character-set facts for the codec on each nine-bit value. -/
theorem codec_shape_fin :
    ∀ v : Fin 512, (permissions_to_rwx v.val).length = 9 ∧
      ∀ c ∈ (permissions_to_rwx v.val).data,
        c = 'r' ∨ c = 'w' ∨ c = 'x' ∨ c = '-' := by
  decide

/-- C3: for every permission value `v` in `[0, 0o777]`, converting `v` to its
symbolic string with `permissions_to_rwx` and converting that string back
with the codec's inverse `symbol_to_value` yields `v` again: the codec pair
forms a round-trip identity on `[0, 0o777]`. -/
theorem claim_C3_codec_roundtrip (v : Nat) (h : v ≤ 0o777) :
    symbol_to_value (permissions_to_rwx v) = v := by
  have hv : v < 512 := by omega
  exact codec_roundtrip_fin ⟨v, hv⟩

/-- Witness for C3 at the concrete permission value `0o755`. -/
theorem claim_C3_codec_roundtrip_witness :
    0o755 ≤ 0o777 ∧ symbol_to_value (permissions_to_rwx 0o755) = 0o755 :=
  ⟨by decide, claim_C3_codec_roundtrip 0o755 (by decide)⟩

/-- C4: for every permission value `v` in `[0, 0o777]`, `permissions_to_rwx`
returns a string of exactly 9 characters, each drawn from `{r, w, x, -}`;
in particular it maps `0o755` to `"rwxr-xr-x"`, `0o644` to `"rw-r--r--"`,
`0` to `"---------"`, and `0o777` to `"rwxrwxrwx"`. -/
theorem claim_C4_codec_shape :
    (∀ v : Nat, v ≤ 0o777 → (permissions_to_rwx v).length = 9 ∧
      ∀ c ∈ (permissions_to_rwx v).data,
        c = 'r' ∨ c = 'w' ∨ c = 'x' ∨ c = '-')
    ∧ permissions_to_rwx 0o755 = "rwxr-xr-x"
    ∧ permissions_to_rwx 0o644 = "rw-r--r--"
    ∧ permissions_to_rwx 0 = "---------"
    ∧ permissions_to_rwx 0o777 = "rwxrwxrwx" := by
  refine ⟨fun v h => ?_, by decide, by decide, by decide, by decide⟩
  have hv : v < 512 := by omega
  exact codec_shape_fin ⟨v, hv⟩

/-- Witness for C4 at the concrete permission value `0o644`. -/
theorem claim_C4_codec_shape_witness :
    0o644 ≤ 0o777 ∧ ((permissions_to_rwx 0o644).length = 9 ∧
      ∀ c ∈ (permissions_to_rwx 0o644).data,
        c = 'r' ∨ c = 'w' ∨ c = 'x' ∨ c = '-') :=
  ⟨by decide, claim_C4_codec_shape.1 0o644 (by decide)⟩

/-- C10: for every nonnegative integer `v`, including values above `0o777`,
`permissions_to_rwx v` is defined (the embedding is a total function) and
returns the same 9-character string as `permissions_to_rwx (v % 0o1000)`:
the codec depends only on the low 9 bits, silently masking higher bits. -/
theorem claim_C10_codec_total_mask (v : Nat) :
    permissions_to_rwx v = permissions_to_rwx (v % 0o1000) := by
  unfold permissions_to_rwx
  rw [digit_shift6_mod v, digit_shift3_mod v, digit_shift0_mod v]

/-! ## Permission-audit lemmas -/

/-- `traverseChildren` leaves every subtree unchanged up to the directory
permission mask: names, shape and plain-file permission bits survive. -/
theorem maskInnerList_traverseChildren (t : Nat) (cs : List PEntry) :
    maskInnerList (traverseChildren t cs).1 = maskInnerList cs := by
  match cs with
  | [] => rfl
  | .file n p :: es =>
      simp [traverseChildren, maskInnerList,
        maskInnerList_traverseChildren t es]
  | .dir n p cs' :: es =>
      simp [traverseChildren, traverse, maskInnerList, maskInner,
        maskInnerList_traverseChildren t cs',
        maskInnerList_traverseChildren t es]

/-- C5: for every existing audit target, the permission audit applies
corrections only to the root node itself and to directories discovered
during the traversal: the audited tree equals the original tree after
erasing exactly the root's and the directories' permission bits, so names,
shape and the permission bits of every plain file inside are unchanged. -/
theorem claim_C5_files_untouched (t : Nat) (e : PEntry) :
    ((check_permissions (some e) t).1).map maskAudited
      = some (maskAudited e) := by
  match e with
  | .file n p => simp [check_permissions, traverse, maskAudited]
  | .dir n p cs =>
      simp [check_permissions, traverse, maskAudited,
        maskInnerList_traverseChildren]

/-- When every directory among the children already carries the requested
bits, `traverseChildren` rewrites nothing and performs no chmod. -/
theorem traverseChildren_noop (t : Nat) (cs : List PEntry)
    (h : dirsAtTarget t cs = true) :
    (traverseChildren t cs).1 = cs ∧ (traverseChildren t cs).2.2 = 0 := by
  match cs with
  | [] => simp [traverseChildren]
  | .file n p :: es =>
      have he := traverseChildren_noop t es
        (by simpa [dirsAtTarget, dirsAtTargetEntry] using h)
      simp [traverseChildren, he.1, he.2]
  | .dir n p cs' :: es =>
      have h' := h
      simp only [dirsAtTarget, dirsAtTargetEntry, Bool.and_eq_true,
        beq_iff_eq] at h'
      have hi := traverseChildren_noop t cs' h'.1.2
      have he := traverseChildren_noop t es h'.2
      simp [traverseChildren, traverse, check_and_correct, h'.1.1, hi.1,
        hi.2, he.1, he.2]

/-- C6: for every directory tree in which the root and every directory
already carry exactly the target permission bits, running the permission
audit performs zero chmod operations and returns the filesystem state
unchanged (the audit is idempotent). -/
theorem claim_C6_idempotent (t : Nat) (e : PEntry)
    (h : allAudited t e = true) :
    (check_permissions (some e) t).1 = some e
      ∧ (check_permissions (some e) t).2.2 = 0 := by
  match e with
  | .file n p =>
      simp only [allAudited, beq_iff_eq] at h
      simp [check_permissions, traverse, check_and_correct, h]
  | .dir n p cs =>
      simp only [allAudited, Bool.and_eq_true, beq_iff_eq] at h
      have hc := traverseChildren_noop t cs h.2
      simp [check_permissions, traverse, check_and_correct, h.1,
        hc.1, hc.2]

/-- Witness for C6 on a concrete two-level tree already at `0o755`. -/
theorem claim_C6_idempotent_witness :
    allAudited 0o755
      (.dir "proj" 0o755 [.file "a.txt" 0o644, .dir "sub" 0o755
        [.file "b.txt" 0o600]]) = true
    ∧ ((check_permissions (some (.dir "proj" 0o755
        [.file "a.txt" 0o644, .dir "sub" 0o755 [.file "b.txt" 0o600]]))
        0o755).1
      = some (.dir "proj" 0o755 [.file "a.txt" 0o644, .dir "sub" 0o755
        [.file "b.txt" 0o600]])
      ∧ ((check_permissions (some (.dir "proj" 0o755
        [.file "a.txt" 0o644, .dir "sub" 0o755 [.file "b.txt" 0o600]]))
        0o755).2.2 = 0)) :=
  ⟨by decide, claim_C6_idempotent 0o755 _ (by decide)⟩

/-- C7: if the audit target path does not exist, `check_permissions`
returns immediately: no error, no permission-bit reads, no writes. -/
theorem claim_C7_missing_target_noop (t : Nat) :
    check_permissions none t = (none, 0, 0) := rfl

/-! ## Renderer lemmas -/

/-- The last dot of a name extended with `".py"` is the appended one. -/
theorem lastDotIdx_append_py (cs : List Char) :
    lastDotIdx (cs ++ ['.', 'p', 'y']) = some cs.length := by
  induction cs with
  | nil => rfl
  | cons c cs ih => simp [lastDotIdx, ih]

/-- A nonempty string has a nonempty character list. -/
theorem str_data_ne_nil {s : String} (h : s ≠ "") : s.data ≠ [] := by
  intro hd
  exact h (String.ext hd)

/-- Appending the recognized extension to a nonempty base name yields that
extension as the `pathlib` suffix. -/
theorem fileSuffix_append_py (m : String) (hm : m ≠ "") :
    fileSuffix (m ++ ".py") = ".py" := by
  have hlen : 0 < m.data.length := List.length_pos.mpr (str_data_ne_nil hm)
  simp only [fileSuffix, String.data_append, lastDotIdx_append_py]
  rw [if_pos (by
    simp only [List.length_append, List.length_cons, List.length_nil]
    omega)]
  rw [List.drop_left]

/-- Appending the recognized extension to a nonempty base name leaves that
base name as the `pathlib` stem. -/
theorem fileStem_append_py (m : String) (hm : m ≠ "") :
    fileStem (m ++ ".py") = m := by
  have hlen : 0 < m.data.length := List.length_pos.mpr (str_data_ne_nil hm)
  simp only [fileStem, String.data_append, lastDotIdx_append_py]
  rw [if_pos (by
    simp only [List.length_append, List.length_cons, List.length_nil]
    omega)]
  rw [List.take_left]

/-- Distinct base names stay distinct after appending the extension. -/
theorem append_py_ne (a b : String) (h : a ≠ b) : a ++ ".py" ≠ b ++ ".py" := by
  intro he
  apply h
  have hd := congrArg String.data he
  simp only [String.data_append] at hd
  exact String.ext (List.append_cancel_right hd)

/-- `insertLe` inserts exactly its element. -/
theorem mem_insertLe {α : Type} (le : α → α → Bool) (x y : α) (l : List α) :
    y ∈ insertLe le x l ↔ y = x ∨ y ∈ l := by
  induction l with
  | nil => simp [insertLe]
  | cons z zs ih =>
      by_cases hc : le x z = true
      · simp [insertLe, hc]
      · simp only [insertLe, hc]
        simp [ih]
        tauto

/-- Sorting does not change membership. -/
theorem mem_isortBy {α : Type} (le : α → α → Bool) (y : α) (l : List α) :
    y ∈ isortBy le l ↔ y ∈ l := by
  induction l with
  | nil => simp [isortBy]
  | cons z zs ih => simp [isortBy, mem_insertLe, ih]

/-- C2 fails on the code: in a root holding the source file `a.py` and the
non-source file `z.txt`, the non-source file is still counted when deciding
which item is last, so the only rendered file line uses the tee connector
`"├── "` and no corner-connector line for it appears at all. -/
theorem claim_C2_counterexample :
    generateMarkdownLines defaultExcluded true
        (.dir "root" [.file "a.py", .file "z.txt"])
      = ["# Project Structure: root", "```", "root/", "├── a.py", "```"]
    ∧ "├── a.py" ∈ generateMarkdownLines defaultExcluded true
        (.dir "root" [.file "a.py", .file "z.txt"])
    ∧ "└── a.py" ∉ generateMarkdownLines defaultExcluded true
        (.dir "root" [.file "a.py", .file "z.txt"]) := by
  refine ⟨rfl, by decide, by decide⟩

/-- C2 amended: in the text rendering only excluded or hidden directories
are removed before enumeration; a file stays in the enumerated items
whatever its extension, and is therefore counted when deciding which item
is last, while a file whose suffix is not `".py"` contributes no rendered
line at all. -/
theorem claim_C2_amended_enumeration :
    (∀ (excluded : List String) (eh : Bool) (cs : List FsEntry)
      (e : FsEntry),
      e ∈ mdItems excluded eh cs ↔
        e ∈ cs ∧ ¬(entryIsDir e = true ∧
          (entryName e ∈ excluded
            ∨ (eh = true ∧ hiddenName (entryName e) = true))))
    ∧ (∀ (excluded : List String) (eh : Bool) (fuel : Nat) (n pre : String)
        (isLast : Bool), fileSuffix n ≠ ".py" →
        mdEntryLines excluded eh fuel (.file n) pre isLast = []) := by
  constructor
  · intro excluded eh cs e
    simp only [mdItems, List.mem_filter, mem_isortBy, Bool.not_eq_true']
    refine and_congr_right fun _ => ?_
    cases hd : entryIsDir e <;> cases heh : eh <;>
      cases hh : hiddenName (entryName e) <;>
      simp [mdSkip, hd, heh, hh]
  · intro excluded eh fuel n pre isLast hn
    cases fuel <;> simp [mdEntryLines, hn]

/-- Witness for C2's amended claim at the concrete non-source name
`z.txt`. -/
theorem claim_C2_amended_enumeration_witness :
    fileSuffix "z.txt" ≠ ".py"
    ∧ mdEntryLines defaultExcluded true 5 (.file "z.txt") "" true = [] :=
  ⟨by decide, claim_C2_amended_enumeration.2 defaultExcluded true 5
    "z.txt" "" true (by decide)⟩

set_option maxHeartbeats 1000000 in
/-- C1: for a root whose subdirectory `pkg` holds the package marker file,
the mapping maps `pkg` to a fresh nested mapping in which the source file
`m ++ ".py"` gets the dotted path `pkg ++ "." ++ m`, and no top-level key
`m` is created; for a root whose subdirectory `plain` lacks the marker
file, no `plain` key is created and the source file is inserted at the
top level under `m` with the dotted path `plain ++ "." ++ m`. -/
theorem claim_C1_package_nesting (pkg plain m : String)
    (hpkgEx : pkg ∉ defaultExcluded)
    (hpkgHid : hiddenName pkg = false)
    (hpkgInit : pkg ≠ "__init__.py")
    (hpkgM : pkg ≠ m)
    (hplainEx : plain ∉ defaultExcluded)
    (hplainHid : hiddenName plain = false)
    (hplainInit : plain ≠ "__init__.py")
    (hplainM : plain ≠ m)
    (hm : m ≠ "") (hmInit : m ≠ "__init__")
    (hmEx : m ++ ".py" ∉ defaultExcluded)
    (hmHid : hiddenName (m ++ ".py") = false) :
    (dictLookup2 (generateDict defaultExcluded true
        (.dir "root" [.dir pkg [.file "__init__.py", .file (m ++ ".py")]]))
        pkg m = some (.str (pkg ++ "." ++ m))
      ∧ dictLookup (generateDict defaultExcluded true
        (.dir "root" [.dir pkg [.file "__init__.py", .file (m ++ ".py")]]))
        m = none)
    ∧ (dictLookup (generateDict defaultExcluded true
        (.dir "root" [.dir plain [.file (m ++ ".py")]]))
        m = some (.str (plain ++ "." ++ m))
      ∧ dictLookup (generateDict defaultExcluded true
        (.dir "root" [.dir plain [.file (m ++ ".py")]]))
        plain = none) := by
  have hmpy : (m ++ ".py") ≠ "__init__.py" := by
    have h0 : ("__init__.py" : String) = "__init__" ++ ".py" := rfl
    rw [h0]
    exact append_py_ne m "__init__" hmInit
  have hsuf := fileSuffix_append_py m hm
  have hstem := fileStem_append_py m hm
  have hmInit2 : ("__init__" : String) ≠ m := Ne.symm hmInit
  have hplainM2 : m ≠ plain := Ne.symm hplainM
  have hi1 : ("__init__.py" : String) ∉ defaultExcluded := by decide
  have hi2 : hiddenName "__init__.py" = false := rfl
  have hi3 : fileSuffix "__init__.py" = ".py" := rfl
  have hi4 : fileStem "__init__.py" = "__init__" := rfl
  refine ⟨⟨?_, ?_⟩, ?_, ?_⟩
  · by_cases hc : dictLe (.file "__init__.py") (.file (m ++ ".py")) = true
    · simp [generateDict, hasInitFile, entryName, sizeList, sizeF,
        buildDictF, isortBy, insertLe, hc, dictSkip, hpkgEx, hpkgHid,
        hpkgInit, hmpy, hmEx, hmHid, hsuf, hstem, hmInit, hmInit2, hi1,
        hi2, hi3, hi4, dictInsert, dictLookup2, dictLookup, hpkgM,
        String.append_assoc]
    · simp [generateDict, hasInitFile, entryName, sizeList, sizeF,
        buildDictF, isortBy, insertLe, hc, dictSkip, hpkgEx, hpkgHid,
        hpkgInit, hmpy, hmEx, hmHid, hsuf, hstem, hmInit, hmInit2, hi1,
        hi2, hi3, hi4, dictInsert, dictLookup2, dictLookup, hpkgM,
        String.append_assoc]
  · by_cases hc : dictLe (.file "__init__.py") (.file (m ++ ".py")) = true
    · simp [generateDict, hasInitFile, entryName, sizeList, sizeF,
        buildDictF, isortBy, insertLe, hc, dictSkip, hpkgEx, hpkgHid,
        hpkgInit, hmpy, hmEx, hmHid, hsuf, hstem, hmInit, hmInit2, hi1,
        hi2, hi3, hi4, dictInsert, dictLookup2, dictLookup, hpkgM,
        String.append_assoc]
    · simp [generateDict, hasInitFile, entryName, sizeList, sizeF,
        buildDictF, isortBy, insertLe, hc, dictSkip, hpkgEx, hpkgHid,
        hpkgInit, hmpy, hmEx, hmHid, hsuf, hstem, hmInit, hmInit2, hi1,
        hi2, hi3, hi4, dictInsert, dictLookup2, dictLookup, hpkgM,
        String.append_assoc]
  · simp [generateDict, hasInitFile, entryName, sizeList, sizeF,
      buildDictF, isortBy, insertLe, dictSkip, hplainEx, hplainHid,
      hplainInit, hmpy, hmEx, hmHid, hsuf, hstem, dictInsert,
      dictLookup, String.append_assoc]
  · simp [generateDict, hasInitFile, entryName, sizeList, sizeF,
      buildDictF, isortBy, insertLe, dictSkip, hplainEx, hplainHid,
      hplainInit, hmpy, hmEx, hmHid, hsuf, hstem, dictInsert,
      dictLookup, hplainM2, String.append_assoc]

/-- Witness for C1 with the concrete names `pkg`, `plain` and `m` of the
spec's example. -/
theorem claim_C1_package_nesting_witness :
    ("pkg" : String) ∉ defaultExcluded
    ∧ hiddenName "pkg" = false
    ∧ ("pkg" : String) ≠ "__init__.py"
    ∧ ("pkg" : String) ≠ "m"
    ∧ ("plain" : String) ∉ defaultExcluded
    ∧ hiddenName "plain" = false
    ∧ ("plain" : String) ≠ "__init__.py"
    ∧ ("plain" : String) ≠ "m"
    ∧ ("m" : String) ≠ ""
    ∧ ("m" : String) ≠ "__init__"
    ∧ ("m" : String) ++ ".py" ∉ defaultExcluded
    ∧ hiddenName ("m" ++ ".py") = false
    ∧ ((dictLookup2 (generateDict defaultExcluded true
        (.dir "root" [.dir "pkg" [.file "__init__.py",
          .file ("m" ++ ".py")]]))
        "pkg" "m" = some (.str ("pkg" ++ "." ++ "m"))
      ∧ dictLookup (generateDict defaultExcluded true
        (.dir "root" [.dir "pkg" [.file "__init__.py",
          .file ("m" ++ ".py")]]))
        "m" = none)
    ∧ (dictLookup (generateDict defaultExcluded true
        (.dir "root" [.dir "plain" [.file ("m" ++ ".py")]]))
        "m" = some (.str ("plain" ++ "." ++ "m"))
      ∧ dictLookup (generateDict defaultExcluded true
        (.dir "root" [.dir "plain" [.file ("m" ++ ".py")]]))
        "plain" = none)) :=
  ⟨by decide, by decide, by decide, by decide, by decide, by decide,
   by decide, by decide, by decide, by decide, by decide, by decide,
   claim_C1_package_nesting "pkg" "plain" "m" (by decide) (by decide)
     (by decide) (by decide) (by decide) (by decide) (by decide)
     (by decide) (by decide) (by decide) (by decide) (by decide)⟩

/-- C8 fails on the code: the hidden source file `.hidden.py` is not
skipped by the markdown pass (whose skip test demands a directory) yet is
skipped by the dict pass, so it is rendered in the text tree while the
mapping stays empty. -/
theorem claim_C8_counterexample :
    mdSkip defaultExcluded true (.file ".hidden.py") = false
    ∧ dictSkip defaultExcluded true (.file ".hidden.py") = true
    ∧ "└── .hidden.py" ∈ generateMarkdownLines defaultExcluded true
        (.dir "root" [.file ".hidden.py"])
    ∧ generateDict defaultExcluded true
        (.dir "root" [.file ".hidden.py"]) = [] := by
  refine ⟨rfl, rfl, by decide, rfl⟩

/-- C8 amended: both passes use the same name test (membership in the
excluded set, or a hidden name when `exclude_hidden` holds), but the text
pass applies it only to directories while the dict pass applies it to
every entry: the passes skip exactly the same directories and differ
precisely on non-directory entries whose name matches the test. -/
theorem claim_C8_amended_skip_tests (excluded : List String) (eh : Bool)
    (e : FsEntry) :
    mdSkip excluded eh e = (entryIsDir e && dictSkip excluded eh e) := by
  cases e <;> simp [mdSkip, dictSkip, entryIsDir]

/-- C9: the code contradicts its own docstring.  When only the markdown is
requested the mapping element of the result is the empty mapping, a
present value, not the absent `None` the docstring and the spec promise;
when only the mapping is requested the markdown element is correctly
absent. -/
theorem claim_C9_mapping_never_absent :
    generate_directory_tree (.dir "proj" [.file "a.py"]) none true
        "markdown" none
      = (some "# Project Structure: proj\n```\nproj/\n└── a.py\n```", [])
    ∧ generate_directory_tree (.dir "proj" [.file "a.py"]) none true
        "dict" none
      = (none, [("a", .str "a")]) := by
  refine ⟨rfl, rfl⟩

end Pathwiz
